import Mathlib

/-!
Verification of the greenremote-jobs ingestion, translation and query pipeline.

The definitions below are a shallow embedding of the TypeScript source:
  - the translation module (isLikelyEnglish, translateToEnglish, ensureJobEnglish,
    ensureJobsEnglish),
  - the source adapters (fetchRemotive, fetchRemoteOk, fetchArbeitNow) and the
    orchestrator fetchAllJobSources / GET /api/fetch-jobs,
  - the query layer (buildJobsQuery, getJobs),
  - the translation backfill POST /api/translate-jobs,
  - the LinkedIn scraper path (fetchLinkedInJobs, scrapeAndInsertLinkedInJobs).

External collaborators (the HTTP fetch of each provider, the MyMemory translation
service, the storage layer) are passed in as explicit parameters or modelled from
the specification of the collaborator where noted.

JavaScript strings are modelled as Lean strings (sequences of code points) with an
explicit UTF-16 length function where the source measures .length; JSON field
values are modelled by JsVal, distinguishing an absent key, a null value, and a
string value (non-string JSON payloads appear here through their String coercion,
which is how the source consumes them).
-/

/-- UTF-16 width of a code point: astral code points take two units. -/
def utf16Width (c : Char) : Nat := if c.toNat ≥ 0x10000 then 2 else 1

/-- JavaScript string length (.length), i.e. the number of UTF-16 code units. -/
def utf16Len (s : String) : Nat := (s.data.map utf16Width).sum

/-- Whitespace as recognised by JavaScript String.prototype.trim. -/
def isJsWhitespace (c : Char) : Bool :=
  c = ' ' || c = '\t' || c = '\n' || c.toNat = 0x0B || c.toNat = 0x0C || c = '\r' ||
  c.toNat = 0xA0 || c.toNat = 0x1680 || (0x2000 ≤ c.toNat && c.toNat ≤ 0x200A) ||
  c.toNat = 0x2028 || c.toNat = 0x2029 || c.toNat = 0x202F || c.toNat = 0x205F ||
  c.toNat = 0x3000 || c.toNat = 0xFEFF

/-- JavaScript String.prototype.trim: strip whitespace from both ends. -/
def jsTrim (s : String) : String :=
  String.mk (((s.data.dropWhile isJsWhitespace).reverse.dropWhile isJsWhitespace).reverse)

/-- Take the first code points fitting in a budget of UTF-16 units; models
String.prototype.slice from index 0 (a surrogate pair straddling the cut is
dropped rather than kept as a lone surrogate). -/
def utf16Take : Nat → List Char → List Char
  | _, [] => []
  | n, c :: cs => if utf16Width c ≤ n then c :: utf16Take (n - utf16Width c) cs else []

/-- A JSON object field as the source discriminates it: the key may be absent,
present with a null value, or present with a (string-coerced) value. -/
inductive JsVal where
  | absent
  | nullv
  | str (s : String)
deriving DecidableEq

/-- Models the `key in obj` test: true when the key is present, even with null value. -/
def JsVal.hasKey : JsVal → Bool
  | .absent => false
  | _ => true

/-- Models String(v ?? dflt): absent and null both fall back to the default. -/
def JsVal.coerce : JsVal → String → String
  | .str s, _ => s
  | _, dflt => dflt

/-- Models the pattern v != null ? String(v) : null. -/
def JsVal.optStr : JsVal → Option String
  | .str s => some s
  | _ => none

/- ------------------------------------------------------------------ -/
/- Translation module (src translate library)                          -/
/- ------------------------------------------------------------------ -/

/-- True if a character is in one of the non-Latin blocks tested by the source
(Arabic, Arabic Supplement, Cyrillic, CJK Unified Ideographs, Hebrew, Thai). -/
def isNonLatinChar (c : Char) : Bool :=
  let code := c.toNat
  (0x0600 ≤ code && code ≤ 0x06ff) ||
  (0x0750 ≤ code && code ≤ 0x077f) ||
  (0x0400 ≤ code && code ≤ 0x04ff) ||
  (0x4e00 ≤ code && code ≤ 0x9fff) ||
  (0x0590 ≤ code && code ≤ 0x05ff) ||
  (0x0e00 ≤ code && code ≤ 0x0e7f)

/-- hasNonLatinScript from the source: some code point lies in a non-Latin block. -/
def hasNonLatinScript (s : String) : Bool := s.data.any isNonLatinChar

/-- The characters matched by the case-insensitive Latin-diacritic character class
of the source. The uppercase forms are included because the regular expression
carries the i flag; no uppercase form of the sharp s exists as a single character
under the canonicalisation used without the u flag. -/
def latinDiacritics : List Char :=
  "äöüßàáâãäåèéêëìíîïòóôõùúûüýÿñçÄÖÜÀÁÂÃÅÈÉÊËÌÍÎÏÒÓÔÕÙÚÛÝŸÑÇ".data

/-- isLikelyEnglish from the source. The floating comparison of the non-ASCII
count against 15 percent of the length is modelled by the exact rational
comparison, with which it agrees for all lengths below 2 ^ 50. -/
def isLikelyEnglish (text : String) : Bool :=
  if utf16Len text < 2 then true
  else
    let t := jsTrim text
    if hasNonLatinScript t then false
    else
      let nonAscii := (t.data.filter (fun c => 127 < c.toNat)).length
      if 3 * utf16Len t < 20 * nonAscii then false
      else if t.data.any (fun c => latinDiacritics.contains c) then false
      else true

/-- The parsed reply of the MyMemory translation endpoint as the source reads it:
the HTTP success flag, the quotaFinished flag, and the optional translated text. -/
structure MyMemoryResp where
  ok : Bool
  quotaFinished : Bool
  translatedText : Option String
deriving DecidableEq

/-- The request-size truncation applied by translateToEnglish before calling the
provider (slice to the 400-unit budget when longer). -/
def truncateForRequest (trimmed : String) : String :=
  if 400 < utf16Len trimmed then String.mk (utf16Take 400 trimmed.data) else trimmed

/-- translateToEnglish from the source. The external translation call is the
parameter tr, mapping the query text to none (transport failure, timeout, or
unparseable body) or to the parsed reply. -/
def translateToEnglish (tr : String → Option MyMemoryResp) (text : String) : String :=
  let trimmed := jsTrim text
  if trimmed = "" || isLikelyEnglish trimmed then trimmed
  else
    let toTranslate := truncateForRequest trimmed
    match tr toTranslate with
    | none => trimmed
    | some resp =>
      if !resp.ok then trimmed
      else if resp.quotaFinished then trimmed
      else
        match resp.translatedText with
        | some tt => if jsTrim tt ≠ "" then jsTrim tt else trimmed
        | none => trimmed

/-- A job record as seen by the translation pass: the four text fields plus the
remaining fields of the record, untouched by translation (the generic spread in
the source). -/
structure TJob (α : Type) where
  title : String
  company : String
  location : Option String
  description : Option String
  extra : α
deriving DecidableEq

/-- ensureJobEnglish from the source: translate the four text fields of one job. -/
def ensureJobEnglish (tr : String → Option MyMemoryResp) (job : TJob α) : TJob α :=
  let title := translateToEnglish tr job.title
  let company := translateToEnglish tr job.company
  let location : Option String :=
    match job.location with
    | some s => if s ≠ "" then some (translateToEnglish tr s) else some ""
    | none => some ""
  let description : Option String :=
    match job.description with
    | none => none
    | some d =>
      if d ≠ "" && jsTrim d ≠ "" then
        some (translateToEnglish tr (String.mk (utf16Take 400 d.data)))
      else some d
  { job with title := title, company := company, location := location,
             description := description }

/-- ensureJobsEnglish from the source: process jobs in batches of three
(the concurrent batch is a plain map, since each record is translated
independently of its siblings; the recursion steps through one batch of up
to three records at a time). -/
def ensureJobsEnglish (tr : String → Option MyMemoryResp) :
    List (TJob α) → List (TJob α)
  | [] => []
  | [a] => [ensureJobEnglish tr a]
  | [a, b] => [ensureJobEnglish tr a, ensureJobEnglish tr b]
  | a :: b :: c :: rest =>
    ensureJobEnglish tr a :: ensureJobEnglish tr b :: ensureJobEnglish tr c ::
      ensureJobsEnglish tr rest

/- ------------------------------------------------------------------ -/
/- Source adapters (src job-sources library)                           -/
/- ------------------------------------------------------------------ -/

/-- The normalized job row produced by every adapter. -/
structure NormalizedJob where
  title : String
  company : String
  location : String
  category : Option String
  description : Option String
  publication_date : Option String
  apply_url : String
  experience_level : Option String
deriving DecidableEq

/-- A raw record of the Remotive feed, with the fields the source reads. -/
structure RemotiveRawJob where
  url : JsVal
  title : JsVal
  company_name : JsVal
  candidate_required_location : JsVal
  category : JsVal
  description : JsVal
  publication_date : JsVal
  job_type : JsVal
deriving DecidableEq

/-- The key-presence filter of fetchRemotive: hasKeys on url, title, company_name. -/
def remotiveHasKeys (j : RemotiveRawJob) : Bool :=
  j.url.hasKey && j.title.hasKey && j.company_name.hasKey

/-- The field mapping of fetchRemotive. -/
def remotiveNormalize (j : RemotiveRawJob) : NormalizedJob :=
  { title := j.title.coerce ""
    company := j.company_name.coerce ""
    location := j.candidate_required_location.coerce "Remote"
    category := j.category.optStr
    description := j.description.optStr
    publication_date := j.publication_date.optStr
    apply_url := j.url.coerce ""
    experience_level := j.job_type.optStr }

/-- fetchRemotive: the outcome of the HTTP fetch is the parameter (an error for a
timeout or a non-success status, else the jobs array of the body, empty when the
body carries no array). A fetch failure propagates to the caller. -/
def fetchRemotive (resp : Except String (List RemotiveRawJob)) :
    Except String (List NormalizedJob) :=
  match resp with
  | .error e => .error e
  | .ok jobs => .ok ((jobs.filter remotiveHasKeys).map remotiveNormalize)

/-- A raw record of the RemoteOK feed. tags0 stands for the first element of the
tags array, absent when tags is not an array or is empty. -/
structure RemoteOkRawJob where
  position : JsVal
  apply_url : JsVal
  url : JsVal
  company : JsVal
  location : JsVal
  tags0 : JsVal
  description : JsVal
  date : JsVal
deriving DecidableEq

/-- The key-presence filter of fetchRemoteOk: position and apply_url present. -/
def remoteOkHasKeys (j : RemoteOkRawJob) : Bool :=
  j.position.hasKey && j.apply_url.hasKey

/-- The field mapping of fetchRemoteOk; apply_url falls back from apply_url to
url to the empty string, as in String(j.apply_url ?? j.url ?? ""). -/
def remoteOkNormalize (j : RemoteOkRawJob) : NormalizedJob :=
  { title := j.position.coerce ""
    company := j.company.coerce ""
    location := j.location.coerce "Remote"
    category := j.tags0.optStr
    description := j.description.optStr
    publication_date := j.date.optStr
    apply_url := match j.apply_url with | .str s => s | _ => j.url.coerce ""
    experience_level := none }

/-- fetchRemoteOk: a fetch failure propagates to the caller. -/
def fetchRemoteOk (resp : Except String (List RemoteOkRawJob)) :
    Except String (List NormalizedJob) :=
  match resp with
  | .error e => .error e
  | .ok data => .ok ((data.filter remoteOkHasKeys).map remoteOkNormalize)

/-- A raw record of the ArbeitNow feed. job_types0 and tags0 stand for the first
elements of the corresponding arrays; created_at holds the publication timestamp,
with a numeric epoch value represented by its ISO-converted string, since the
model has no date type. -/
structure ArbeitNowRawJob where
  url : JsVal
  title : JsVal
  company_name : JsVal
  location : JsVal
  remote : Bool
  created_at : JsVal
  job_types0 : JsVal
  tags0 : JsVal
  description : JsVal
deriving DecidableEq

/-- The key-presence filter of fetchArbeitNow: url, title, company_name present. -/
def arbeitNowHasKeys (j : ArbeitNowRawJob) : Bool :=
  j.url.hasKey && j.title.hasKey && j.company_name.hasKey

/-- The field mapping of fetchArbeitNow. The location expression models
String(j.location or (j.remote then "Remote" else "") or "Remote") with the
JavaScript or-chains on falsy values. -/
def arbeitNowNormalize (j : ArbeitNowRawJob) : NormalizedJob :=
  let loc1 := j.location.coerce ""
  let loc2 := if loc1 ≠ "" then loc1 else (if j.remote then "Remote" else "")
  { title := j.title.coerce ""
    company := j.company_name.coerce ""
    location := if loc2 ≠ "" then loc2 else "Remote"
    category := j.tags0.optStr
    description := j.description.optStr
    publication_date := j.created_at.optStr
    apply_url := j.url.coerce ""
    experience_level := j.job_types0.optStr }

/-- fetchArbeitNow: unlike the other two adapters its whole body sits inside a
try-catch, so a fetch failure yields the empty list instead of propagating. -/
def fetchArbeitNow (resp : Except String (List ArbeitNowRawJob)) :
    List NormalizedJob :=
  match resp with
  | .error _ => []
  | .ok list => (list.filter arbeitNowHasKeys).map arbeitNowNormalize

/-- A per-source result of fetchAllJobSources. -/
structure FetchJobsResult where
  source : String
  count : Nat
  jobs : List NormalizedJob
  error : Option String
deriving DecidableEq

/-- fetchAllJobSources: run the three adapters in order, catching the rejection
of each one into a per-source error entry. fetchArbeitNow never rejects, so its
catch branch is unreachable and its entry always carries no error. -/
def fetchAllJobSources (r1 : Except String (List RemotiveRawJob))
    (r2 : Except String (List RemoteOkRawJob))
    (r3 : Except String (List ArbeitNowRawJob)) : List FetchJobsResult :=
  let remotive := match fetchRemotive r1 with
    | .ok jobs => { source := "remotive", count := jobs.length, jobs := jobs, error := none }
    | .error e => { source := "remotive", count := 0, jobs := [], error := some e }
  let remoteok := match fetchRemoteOk r2 with
    | .ok jobs => { source := "remoteok", count := jobs.length, jobs := jobs, error := none }
    | .error e => { source := "remoteok", count := 0, jobs := [], error := some e }
  let arbeitnow : FetchJobsResult :=
    { source := "arbeitnow", count := (fetchArbeitNow r3).length,
      jobs := fetchArbeitNow r3, error := none }
  [remotive, remoteok, arbeitnow]

/- ------------------------------------------------------------------ -/
/- Storage model and ingestion orchestrator (GET /api/fetch-jobs)      -/
/- ------------------------------------------------------------------ -/

/-- A row of the jobs table as written by the ingestion routes. -/
structure JobRow where
  title : String
  company : String
  location : String
  description : Option String
  apply_url : String
deriving DecidableEq

/-- Modelled from the spec: the storage collaborator offers
upsert-with-conflict-target-and-skip-duplicates on apply_url (section 6); a row
whose apply_url already exists is skipped without touching the stored row, a new
apply_url is appended, and the returned count covers only the rows actually
inserted (the rows the select on the upsert reply reports). -/
def upsertIgnoreDuplicates : List JobRow → List JobRow → List JobRow × Nat
  | table, [] => (table, 0)
  | table, r :: rs =>
    if table.any (fun row => row.apply_url = r.apply_url) then
      upsertIgnoreDuplicates table rs
    else
      let rest := upsertIgnoreDuplicates (table ++ [r]) rs
      (rest.1, rest.2 + 1)

/-- The fields of a NormalizedJob that the translation pass leaves untouched. -/
structure NormalizedRest where
  category : Option String
  publication_date : Option String
  apply_url : String
  experience_level : Option String
deriving DecidableEq

/-- View a NormalizedJob as a translation-pass record. -/
def normalizedToTJob (j : NormalizedJob) : TJob NormalizedRest :=
  { title := j.title, company := j.company, location := some j.location,
    description := j.description,
    extra := ⟨j.category, j.publication_date, j.apply_url, j.experience_level⟩ }

/-- The row mapping of GET /api/fetch-jobs: location falls back to "Remote" when
the translated location is empty (j.location or "Remote" in the source). -/
def toUpsertRow (j : TJob NormalizedRest) : JobRow :=
  { title := j.title, company := j.company,
    location := match j.location with
      | some s => if s = "" then "Remote" else s
      | none => "Remote"
    description := j.description,
    apply_url := j.extra.apply_url }

/-- One per-source summary entry of GET /api/fetch-jobs. -/
structure SummaryEntry where
  source : String
  fetched : Nat
  inserted : Nat
  error : Option String
deriving DecidableEq

/-- The loop body of GET /api/fetch-jobs over the per-source results: on a
source error push an error entry; otherwise drop records with a blank apply_url,
translate, map to rows, and upsert (storage writes modelled as succeeding).
Returns the final table, the grand total inserted, and the summary entries. -/
def processResults (tr : String → Option MyMemoryResp) :
    List JobRow → List FetchJobsResult → List JobRow × Nat × List SummaryEntry
  | tbl, [] => (tbl, 0, [])
  | tbl, r :: rest =>
    match r.error with
    | some e =>
      let nxt := processResults tr tbl rest
      (nxt.1, nxt.2.1, ⟨r.source, 0, 0, some e⟩ :: nxt.2.2)
    | none =>
      let filtered := r.jobs.filter (fun j => jsTrim j.apply_url != "")
      let translated := ensureJobsEnglish tr (filtered.map normalizedToTJob)
      let rows := translated.map toUpsertRow
      if rows.length = 0 then
        let nxt := processResults tr tbl rest
        (nxt.1, nxt.2.1, ⟨r.source, r.count, 0, none⟩ :: nxt.2.2)
      else
        let up := upsertIgnoreDuplicates tbl rows
        let nxt := processResults tr up.1 rest
        (nxt.1, nxt.2.1 + up.2, ⟨r.source, r.count, up.2, none⟩ :: nxt.2.2)

/-- The JSON body of GET /api/fetch-jobs on its success path. -/
structure GetFetchJobsResponse where
  ok : Bool
  totalInserted : Nat
  summary : List SummaryEntry
deriving DecidableEq

/-- GET /api/fetch-jobs: run the three adapters on the given fetch outcomes,
process each per-source result in order, and answer ok with the summary.
Also returns the final state of the jobs table. -/
def fetchJobsGet (tr : String → Option MyMemoryResp) (table : List JobRow)
    (r1 : Except String (List RemotiveRawJob))
    (r2 : Except String (List RemoteOkRawJob))
    (r3 : Except String (List ArbeitNowRawJob)) :
    GetFetchJobsResponse × List JobRow :=
  let results := fetchAllJobSources r1 r2 r3
  let p := processResults tr table results
  ({ ok := true, totalInserted := p.2.1, summary := p.2.2 }, p.1)

/- ------------------------------------------------------------------ -/
/- Query layer (src jobs library)                                      -/
/- ------------------------------------------------------------------ -/

/-- The sort options of the listing query. -/
inductive SortOption where
  | newest
  | oldest
deriving DecidableEq

/-- The filter set accepted by the query layer. Optional numbers stand for the
Number coercion of the source: a missing or non-numeric page or limit acts as
zero does there. -/
structure JobFilters where
  search : Option String
  location : Option String
  category : Option String
  experience : Option String
  remote : Bool
  sort : Option SortOption
  page : Option Nat
  limit : Option Nat
deriving DecidableEq

/-- One condition chained onto the read query by buildJobsQuery. -/
inductive QueryCond where
  | searchOr (pattern : String)
  | ilikeLocation (pattern : String)
  | ilikeCategory (pattern : String)
  | ilikeExperience (pattern : String)
deriving DecidableEq

/-- The read query assembled by buildJobsQuery: the chained conditions in the
order the source adds them, and the sort direction on created_at. -/
structure JobsQuery where
  conds : List QueryCond
  sortAscending : Bool
deriving DecidableEq

/-- buildJobsQuery from the source: compute the effective limit (default 12,
capped at 50), the page, the range bounds, and chain each filter only when its
value is present and non-blank; with skip set the category and experience
filters are left out. Returns (query, range start, range end, limit, page). -/
def buildJobsQuery (filters : JobFilters) (skip : Bool) :
    JobsQuery × Nat × Nat × Nat × Nat :=
  let limit := min (match filters.limit with
    | some n => if n = 0 then 12 else n
    | none => 12) 50
  let page := match filters.page with | some n => n | none => 0
  let fromIdx := page * limit
  let toIdx := fromIdx + limit - 1
  let sortAsc := match filters.sort with | some SortOption.oldest => true | _ => false
  let searchConds := match filters.search with
    | some s => if jsTrim s = "" then [] else [QueryCond.searchOr ("%" ++ jsTrim s ++ "%")]
    | none => []
  let locationConds := match filters.location with
    | some s => if jsTrim s = "" then [] else [QueryCond.ilikeLocation ("%" ++ jsTrim s ++ "%")]
    | none => []
  let categoryConds := if skip then [] else match filters.category with
    | some s => if jsTrim s = "" then [] else [QueryCond.ilikeCategory ("%" ++ jsTrim s ++ "%")]
    | none => []
  let experienceConds := if skip then [] else match filters.experience with
    | some s => if jsTrim s = "" then [] else [QueryCond.ilikeExperience ("%" ++ jsTrim s ++ "%")]
    | none => []
  let remoteConds := if filters.remote then [QueryCond.ilikeLocation "%remote%"] else []
  (⟨searchConds ++ locationConds ++ categoryConds ++ experienceConds ++ remoteConds,
    sortAsc⟩, fromIdx, toIdx, limit, page)

/-- A storage error of the read path: the PostgreSQL code when one is present,
and the message text. -/
structure PgError where
  code : Option String
  message : String
deriving DecidableEq

/-- Substring test on strings, models String.prototype.includes. -/
def strContains (s pat : String) : Bool :=
  (List.range (s.data.length + 1)).any
    (fun i => decide ((s.data.drop i).take pat.data.length = pat.data))

/-- The result shape of getJobs. -/
structure GetJobsResult where
  jobs : List JobRow
  total : Nat
  page : Nat
  totalPages : Nat
  limit : Nat
deriving DecidableEq

/-- getJobs from the source. The storage read is the parameter db, taking the
assembled query and the range bounds and returning either an error or the
data and count of the reply (either of which the service may omit). On an
error recognised as undefined-column (code 42703, or a message containing
that code) the query is retried once with the optional columns skipped; the
retry keeps the limit of the first call, and any error of the retry, or any
unrecognised error of the first call, propagates. -/
def getJobs
    (db : JobsQuery → Nat → Nat → Except PgError (Option (List JobRow) × Option Nat))
    (filters : JobFilters) : Except PgError GetJobsResult :=
  let q := buildJobsQuery filters false
  let limit := q.2.2.2.1
  match db q.1 q.2.1 q.2.2.1 with
  | .ok res =>
    let total := res.2.getD 0
    let tp := (total + limit - 1) / limit
    .ok { jobs := res.1.getD [], total := total, page := q.2.2.2.2,
          totalPages := if tp = 0 then 1 else tp, limit := limit }
  | .error e =>
    if e.code = some "42703" || strContains e.message "42703" then
      let fb := buildJobsQuery filters true
      match db fb.1 fb.2.1 fb.2.2.1 with
      | .ok res =>
        let total := res.2.getD 0
        let tp := (total + limit - 1) / limit
        .ok { jobs := res.1.getD [], total := total, page := fb.2.2.2.2,
              totalPages := if tp = 0 then 1 else tp, limit := limit }
      | .error e2 => .error e2
    else .error e

/- ------------------------------------------------------------------ -/
/- Translation backfill (POST /api/translate-jobs)                     -/
/- ------------------------------------------------------------------ -/

/-- A stored row as the backfill reads it (id plus the four text columns,
each of which may be null in the table). -/
structure StoredTransRow where
  id : Nat
  title : Option String
  company : Option String
  location : Option String
  description : Option String
deriving DecidableEq

/-- The mapping the backfill applies before translation:
String(title or empty), String(company or empty), location or null,
description or null. -/
def toTransTJob (j : StoredTransRow) : TJob Unit :=
  { title := j.title.getD "", company := j.company.getD "",
    location := j.location, description := j.description, extra := () }

/-- The changed test of the backfill: some translated field differs from the
stored one, comparing a missing stored title or company as empty text and a
missing stored location or description as null, exactly as the source does. -/
def rowChanged (orig : StoredTransRow) (t : TJob Unit) : Bool :=
  t.title != orig.title.getD "" || t.company != orig.company.getD "" ||
  t.location != orig.location || t.description != orig.description

/-- The update the backfill writes for a changed row: title and company from the
translation, location from the translation falling back to the stored value and
then to empty, description from the translation falling back to the stored one. -/
def applyTransUpdate (orig : StoredTransRow) (t : TJob Unit) : StoredTransRow :=
  { orig with
    title := some t.title, company := some t.company,
    location := some (match t.location with
      | some s => s
      | none => orig.location.getD ""),
    description := match t.description with
      | some d => some d
      | none => orig.description }

/-- POST /api/translate-jobs: translate every stored row, update exactly the rows
whose translation changed some field (pairing translated output with original
rows positionally), and report the number of rows updated. Row ids are assumed
distinct, and storage updates are modelled as succeeding. -/
def translateJobsPost (tr : String → Option MyMemoryResp)
    (table : List StoredTransRow) : List StoredTransRow × Nat :=
  let translated := ensureJobsEnglish tr (table.map toTransTJob)
  let pairs := table.zip translated
  (pairs.map (fun p => if rowChanged p.1 p.2 then applyTransUpdate p.1 p.2 else p.1),
   (pairs.filter (fun p => rowChanged p.1 p.2)).length)

/- ------------------------------------------------------------------ -/
/- LinkedIn scraper path (scrapeAndInsertLinkedInJobs)                 -/
/- ------------------------------------------------------------------ -/

/-- A raw record of the LinkedIn jobs service as the scraper reads it. -/
structure LinkedInRaw where
  title : JsVal
  company : JsVal
  location : JsVal
  description : JsVal
  link : JsVal
  job_url : JsVal
  url : JsVal
deriving DecidableEq

/-- A normalized LinkedIn job row. -/
structure LinkedInJobRow where
  title : String
  company : String
  location : String
  description : String
  apply_url : String
deriving DecidableEq

/-- fetchLinkedInJobs from the source: map each raw record (location falling
back to "Worldwide" when absent or null, apply_url falling back along
link, job_url, url) and keep only records with a non-empty apply_url. -/
def fetchLinkedInJobs (list : List LinkedInRaw) : List LinkedInJobRow :=
  (list.map (fun j =>
    ({ title := j.title.coerce "", company := j.company.coerce "",
       location := j.location.coerce "Worldwide",
       description := j.description.coerce "",
       apply_url := match j.link with
         | .str s => s
         | _ => match j.job_url with
           | .str s => s
           | _ => j.url.coerce "" } : LinkedInJobRow))).filter
    (fun j => j.apply_url.length > 0)

/-- The result shape of the LinkedIn scrape. -/
structure ScrapeResult where
  fetched : Nat
  inserted : Nat
deriving DecidableEq

/-- View a LinkedIn row as a translation-pass record (extra keeps the apply_url). -/
def linkedInToTJob (j : LinkedInJobRow) : TJob String :=
  { title := j.title, company := j.company, location := some j.location,
    description := some j.description, extra := j.apply_url }

/-- scrapeAndInsertLinkedInJobs from the source: fetch, translate, map to rows
(location falling back to "Worldwide" only when null, which after translation
never happens, so an empty location is stored as the empty string), and upsert
with the same conflict handling as the other sources. -/
def scrapeAndInsertLinkedInJobs (tr : String → Option MyMemoryResp)
    (table : List JobRow) (list : List LinkedInRaw) : ScrapeResult × List JobRow :=
  let jobs := fetchLinkedInJobs list
  if jobs.length = 0 then ({ fetched := 0, inserted := 0 }, table)
  else
    let translated := ensureJobsEnglish tr (jobs.map linkedInToTJob)
    let rows := translated.map (fun j =>
      ({ title := j.title, company := j.company,
         location := match j.location with | some s => s | none => "Worldwide",
         description := some (match j.description with | some d => d | none => ""),
         apply_url := j.extra } : JobRow))
    let up := upsertIgnoreDuplicates table rows
    ({ fetched := jobs.length, inserted := up.2 }, up.1)

/- ------------------------------------------------------------------ -/
/- Helper lemmas                                                       -/
/- ------------------------------------------------------------------ -/

/-- The batched translation pass equals a plain map of the per-record pass. -/
theorem ensureJobsEnglish_eq_map (tr : String → Option MyMemoryResp)
    (l : List (TJob α)) : ensureJobsEnglish tr l = l.map (ensureJobEnglish tr) := by
  have H : ∀ n (l : List (TJob α)), l.length ≤ n →
      ensureJobsEnglish tr l = l.map (ensureJobEnglish tr) := by
    intro n
    induction n with
    | zero =>
      intro l h
      cases l with
      | nil => rfl
      | cons a rest => simp at h
    | succ n ih =>
      intro l h
      match l with
      | [] => rfl
      | [a] => rfl
      | [a, b] => rfl
      | a :: b :: c :: rest =>
        have hr : rest.length ≤ n := by simp at h; omega
        simp [ensureJobsEnglish, ih rest hr]
  exact H l.length l le_rfl

/-- The per-record translation pass rewrites only the four text fields. -/
theorem ensureJobEnglish_extra (tr : String → Option MyMemoryResp)
    (j : TJob α) : (ensureJobEnglish tr j).extra = j.extra := rfl

/-- The storage upsert only appends rows: the stored table survives unchanged. -/
theorem upsertIgnoreDuplicates_extends (rows : List JobRow) :
    ∀ table : List JobRow, ∃ added,
      (upsertIgnoreDuplicates table rows).1 = table ++ added := by
  induction rows with
  | nil => intro table; exact ⟨[], by simp [upsertIgnoreDuplicates]⟩
  | cons r rs ih =>
    intro table
    by_cases h : table.any (fun row => row.apply_url = r.apply_url)
    · obtain ⟨added, ha⟩ := ih table
      exact ⟨added, by simp [upsertIgnoreDuplicates, h, ha]⟩
    · obtain ⟨added, ha⟩ := ih (table ++ [r])
      exact ⟨[r] ++ added, by simp [upsertIgnoreDuplicates, h, ha]⟩

/-- Every row of the upserted table comes from the old table or the batch. -/
theorem upsertIgnoreDuplicates_mem (rows : List JobRow) :
    ∀ (table : List JobRow) (row : JobRow),
      row ∈ (upsertIgnoreDuplicates table rows).1 → row ∈ table ∨ row ∈ rows := by
  induction rows with
  | nil => intro table row h; simp [upsertIgnoreDuplicates] at h; exact Or.inl h
  | cons r rs ih =>
    intro table row h
    by_cases hc : table.any (fun x => x.apply_url = r.apply_url)
    · simp only [upsertIgnoreDuplicates, hc, if_pos] at h
      rcases ih table row h with h1 | h1
      · exact Or.inl h1
      · exact Or.inr (List.mem_cons_of_mem _ h1)
    · simp only [upsertIgnoreDuplicates, hc, if_neg, Bool.false_eq_true,
        not_false_iff] at h
      rcases ih (table ++ [r]) row h with h1 | h1
      · rcases List.mem_append.mp h1 with h2 | h2
        · exact Or.inl h2
        · simp at h2; exact Or.inr (by simp [h2])
      · exact Or.inr (List.mem_cons_of_mem _ h1)

/-- Rows produced by the ingestion row mapping never carry an empty location. -/
theorem toUpsertRow_location_ne (t : TJob NormalizedRest) :
    (toUpsertRow t).location ≠ "" := by
  unfold toUpsertRow
  cases t.location with
  | none => simp
  | some s =>
    by_cases hs : s = "" <;> simp [hs]

/-- Every row of the table after the ingestion loop comes from the initial
table or has a non-empty location. -/
theorem processResults_mem (tr : String → Option MyMemoryResp)
    (results : List FetchJobsResult) :
    ∀ (tbl : List JobRow) (row : JobRow),
      row ∈ (processResults tr tbl results).1 → row ∈ tbl ∨ row.location ≠ "" := by
  induction results with
  | nil => intro tbl row h; simp [processResults] at h; exact Or.inl h
  | cons r rest ih =>
    intro tbl row h
    simp only [processResults] at h
    cases he : r.error with
    | some e =>
      rw [he] at h
      exact ih tbl row h
    | none =>
      rw [he] at h
      simp only at h
      split at h
      · exact ih tbl row h
      · rcases ih _ row h with h1 | h1
        · rcases upsertIgnoreDuplicates_mem _ _ _ h1 with h2 | h2
          · exact Or.inl h2
          · rcases List.mem_map.mp h2 with ⟨t, _, ht⟩
            exact Or.inr (ht ▸ toUpsertRow_location_ne t)
        · exact Or.inr h1

/-- The ingestion loop emits one summary entry per source result, so the
summary of a run always splits as one entry followed by the summary of the
remaining results from some intermediate table. -/
theorem processResults_summary_shape (tr : String → Option MyMemoryResp)
    (tbl : List JobRow) (r : FetchJobsResult) (rest : List FetchJobsResult) :
    ∃ e tbl2, (processResults tr tbl (r :: rest)).2.2 =
      e :: (processResults tr tbl2 rest).2.2 := by
  simp only [processResults]
  cases r.error with
  | some e => exact ⟨_, tbl, rfl⟩
  | none =>
    simp only
    split
    · exact ⟨_, tbl, rfl⟩
    · exact ⟨_, _, rfl⟩

/- ------------------------------------------------------------------ -/
/- Claim theorems                                                      -/
/- ------------------------------------------------------------------ -/

/-- C1: upserting a normalized record whose apply_url already exists in the jobs
table leaves the table unchanged: for every stored table and record, ingesting
the record a second time (in a later run, or twice within the same batch) yields
the same table as ingesting it once, inserts no second row, and the first upsert
only appends to the table without overwriting the fields of any existing row. -/
theorem upsert_apply_url_idempotent (table : List JobRow) (r : JobRow) :
    upsertIgnoreDuplicates (upsertIgnoreDuplicates table [r]).1 [r] =
      ((upsertIgnoreDuplicates table [r]).1, 0) ∧
    (upsertIgnoreDuplicates table [r, r]).1 = (upsertIgnoreDuplicates table [r]).1 ∧
    ∃ added, (upsertIgnoreDuplicates table [r]).1 = table ++ added ∧
      added.length ≤ 1 := by
  by_cases h : table.any (fun row => row.apply_url = r.apply_url)
  · refine ⟨?_, ?_, [], ?_, ?_⟩
    · simp [upsertIgnoreDuplicates, h]
    · simp [upsertIgnoreDuplicates, h]
    · simp [upsertIgnoreDuplicates, h]
    · simp
  · have hr : (table ++ [r]).any (fun row => row.apply_url = r.apply_url) := by
      simp [List.any_append]
    refine ⟨?_, ?_, [r], ?_, ?_⟩
    · simp [upsertIgnoreDuplicates, h, hr]
    · simp [upsertIgnoreDuplicates, h, hr]
    · simp [upsertIgnoreDuplicates, h]
    · simp

/-- C10: the batched translation pass returns a list of the same length whose
entry at every position is the per-record translation of the input entry at that
position, and the per-record translation leaves every field other than the four
text fields unchanged. -/
theorem ensureJobsEnglish_positional (tr : String → Option MyMemoryResp)
    (l : List (TJob α)) (i : Nat) (j : TJob α) :
    (ensureJobsEnglish tr l).length = l.length ∧
    (ensureJobsEnglish tr l)[i]? = (l[i]?).map (ensureJobEnglish tr) ∧
    (ensureJobEnglish tr j).extra = j.extra := by
  refine ⟨?_, ?_, rfl⟩
  · rw [ensureJobsEnglish_eq_map]; simp
  · rw [ensureJobsEnglish_eq_map]; simp [List.getElem?_map]

/-- One step of the ingestion loop: processing the head result only transforms
the table and adds one summary entry and one inserted count, independently of
the remaining results. -/
theorem processResults_cons_step (tr : String → Option MyMemoryResp)
    (tbl : List JobRow) (r : FetchJobsResult) : ∃ entry tbl2 k, ∀ rest,
    processResults tr tbl (r :: rest) =
      ((processResults tr tbl2 rest).1,
       (processResults tr tbl2 rest).2.1 + k,
       entry :: (processResults tr tbl2 rest).2.2) := by
  cases he : r.error with
  | some e =>
    refine ⟨⟨r.source, 0, 0, some e⟩, tbl, 0, fun rest => ?_⟩
    simp [processResults, he]
  | none =>
    by_cases hz :
        ensureJobsEnglish tr
          ((r.jobs.filter (fun j => jsTrim j.apply_url != "")).map normalizedToTJob) = []
    · refine ⟨⟨r.source, r.count, 0, none⟩, tbl, 0, fun rest => ?_⟩
      simp [processResults, he, hz]
    · refine ⟨⟨r.source, r.count,
        (upsertIgnoreDuplicates tbl
          ((ensureJobsEnglish tr
            ((r.jobs.filter (fun j => jsTrim j.apply_url != "")).map
              normalizedToTJob)).map toUpsertRow)).2, none⟩,
        (upsertIgnoreDuplicates tbl
          ((ensureJobsEnglish tr
            ((r.jobs.filter (fun j => jsTrim j.apply_url != "")).map
              normalizedToTJob)).map toUpsertRow)).1,
        (upsertIgnoreDuplicates tbl
          ((ensureJobsEnglish tr
            ((r.jobs.filter (fun j => jsTrim j.apply_url != "")).map
              normalizedToTJob)).map toUpsertRow)).2, fun rest => ?_⟩
      simp [processResults, he, hz]

/-- C2 (amended): a fetch failure of the Remotive or RemoteOK adapter yields a
per-source summary entry with error set, fetched and inserted zero, while the
sibling sources are processed exactly as they would be with that source fetching
nothing, and the route still answers ok; a fetch failure of the ArbeitNow
adapter, however, is swallowed inside the adapter, so the whole run is
indistinguishable from ArbeitNow fetching nothing and its summary entry carries
fetched zero and inserted zero with NO error set. -/
theorem fetchJobs_source_failure_isolated :
    (∀ (tr : String → Option MyMemoryResp) (table : List JobRow) (e : String)
        (r2 : Except String (List RemoteOkRawJob))
        (r3 : Except String (List ArbeitNowRawJob)),
      (fetchJobsGet tr table (.error e) r2 r3).1.ok = true ∧
      (fetchJobsGet tr table (.error e) r2 r3).1.summary.head? =
        some ⟨"remotive", 0, 0, some e⟩ ∧
      (fetchJobsGet tr table (.error e) r2 r3).1.summary.tail =
        (fetchJobsGet tr table (.ok []) r2 r3).1.summary.tail ∧
      (fetchJobsGet tr table (.error e) r2 r3).1.totalInserted =
        (fetchJobsGet tr table (.ok []) r2 r3).1.totalInserted ∧
      (fetchJobsGet tr table (.error e) r2 r3).2 =
        (fetchJobsGet tr table (.ok []) r2 r3).2) ∧
    (∀ (tr : String → Option MyMemoryResp) (table : List JobRow) (e : String)
        (r1 : Except String (List RemotiveRawJob))
        (r3 : Except String (List ArbeitNowRawJob)),
      (fetchJobsGet tr table r1 (.error e) r3).1.ok = true ∧
      (fetchJobsGet tr table r1 (.error e) r3).1.summary.tail.head? =
        some ⟨"remoteok", 0, 0, some e⟩ ∧
      (fetchJobsGet tr table r1 (.error e) r3).1.summary.head? =
        (fetchJobsGet tr table r1 (.ok []) r3).1.summary.head? ∧
      (fetchJobsGet tr table r1 (.error e) r3).1.summary.drop 2 =
        (fetchJobsGet tr table r1 (.ok []) r3).1.summary.drop 2 ∧
      (fetchJobsGet tr table r1 (.error e) r3).1.totalInserted =
        (fetchJobsGet tr table r1 (.ok []) r3).1.totalInserted ∧
      (fetchJobsGet tr table r1 (.error e) r3).2 =
        (fetchJobsGet tr table r1 (.ok []) r3).2) ∧
    (∀ (tr : String → Option MyMemoryResp) (table : List JobRow) (e : String)
        (r1 : Except String (List RemotiveRawJob))
        (r2 : Except String (List RemoteOkRawJob)),
      fetchJobsGet tr table r1 r2 (.error e) =
        fetchJobsGet tr table r1 r2 (.ok []) ∧
      (fetchJobsGet tr table r1 r2 (.error e)).1.summary.tail.tail.head? =
        some ⟨"arbeitnow", 0, 0, none⟩) := by
  refine ⟨fun tr table e r2 r3 => ⟨rfl, rfl, rfl, rfl, rfl⟩,
          fun tr table e r1 r3 => ?_, fun tr table e r1 r2 => ⟨rfl, ?_⟩⟩
  · obtain ⟨entry, tbl2, k, hstep⟩ := processResults_cons_step tr table
      (match fetchRemotive r1 with
        | .ok jobs => ⟨"remotive", jobs.length, jobs, none⟩
        | .error e1 => ⟨"remotive", 0, [], some e1⟩)
    refine ⟨rfl, ?_, ?_, ?_, ?_, ?_⟩ <;>
      simp only [fetchJobsGet, fetchAllJobSources, fetchRemoteOk, hstep] <;> rfl
  · obtain ⟨entry, tbl2, k, hstep⟩ := processResults_cons_step tr table
      (match fetchRemotive r1 with
        | .ok jobs => ⟨"remotive", jobs.length, jobs, none⟩
        | .error e1 => ⟨"remotive", 0, [], some e1⟩)
    obtain ⟨entry2, tbl3, k2, hstep2⟩ := processResults_cons_step tr tbl2
      (match fetchRemoteOk r2 with
        | .ok jobs => ⟨"remoteok", jobs.length, jobs, none⟩
        | .error e1 => ⟨"remoteok", 0, [], some e1⟩)
    simp only [fetchJobsGet, fetchAllJobSources, fetchArbeitNow, hstep, hstep2]
    rfl

/-- C2 counterexample: on an ArbeitNow fetch failure (for instance a timeout)
the per-source summary entry does NOT have error set, contrary to the claim:
the run reports all three sources without any error field. -/
theorem fetchJobs_arbeitnow_failure_no_error :
    (fetchJobsGet (fun _ => none) [] (.ok []) (.ok [])
      (.error "timeout")).1.summary =
    [⟨"remotive", 0, 0, none⟩, ⟨"remoteok", 0, 0, none⟩,
     ⟨"arbeitnow", 0, 0, none⟩] := by rfl

/-- C3 (amended): the Remotive and RemoteOK adapters drop exactly the records
missing one of their required identifying KEYS (url, title, company_name for
Remotive; position, apply_url for RemoteOK), silently and without failing; every
record possessing those keys is kept with its values coerced to strings, so a
present-but-empty value is NOT excluded and the normalized output can contain
records with an empty title, employer name, or apply url. -/
theorem adapters_drop_missing_key_records :
    (∀ (l : List RemotiveRawJob) (out : List NormalizedJob),
      fetchRemotive (.ok l) = .ok out →
      out.length = (l.filter remotiveHasKeys).length ∧
      (∀ j ∈ out, ∃ r ∈ l, remotiveHasKeys r = true ∧ j = remotiveNormalize r) ∧
      (∀ r ∈ l, remotiveHasKeys r = true → remotiveNormalize r ∈ out)) ∧
    (∀ l : List RemotiveRawJob, ∃ out, fetchRemotive (.ok l) = .ok out) ∧
    (∀ (l : List RemoteOkRawJob) (out : List NormalizedJob),
      fetchRemoteOk (.ok l) = .ok out →
      out.length = (l.filter remoteOkHasKeys).length ∧
      (∀ j ∈ out, ∃ r ∈ l, remoteOkHasKeys r = true ∧ j = remoteOkNormalize r) ∧
      (∀ r ∈ l, remoteOkHasKeys r = true → remoteOkNormalize r ∈ out)) ∧
    (∀ l : List RemoteOkRawJob, ∃ out, fetchRemoteOk (.ok l) = .ok out) := by
  refine ⟨fun l out h => ?_, fun l => ⟨_, rfl⟩, fun l out h => ?_, fun l => ⟨_, rfl⟩⟩
  · have hout : out = (l.filter remotiveHasKeys).map remotiveNormalize := by
      simpa [fetchRemotive] using h.symm
    subst hout
    refine ⟨by simp, fun j hj => ?_, fun r hr hk => ?_⟩
    · rcases List.mem_map.mp hj with ⟨r, hr, hjr⟩
      exact ⟨r, (List.mem_filter.mp hr).1, (List.mem_filter.mp hr).2, hjr.symm⟩
    · exact List.mem_map_of_mem _ (List.mem_filter.mpr ⟨hr, hk⟩)
  · have hout : out = (l.filter remoteOkHasKeys).map remoteOkNormalize := by
      simpa [fetchRemoteOk] using h.symm
    subst hout
    refine ⟨by simp, fun j hj => ?_, fun r hr hk => ?_⟩
    · rcases List.mem_map.mp hj with ⟨r, hr, hjr⟩
      exact ⟨r, (List.mem_filter.mp hr).1, (List.mem_filter.mp hr).2, hjr.symm⟩
    · exact List.mem_map_of_mem _ (List.mem_filter.mpr ⟨hr, hk⟩)

/-- C3 witness: on a one-record Remotive response whose record carries the three
keys, the normalized output keeps exactly that record. -/
theorem adapters_drop_missing_key_records_witness :
    ([(⟨"T", "C", "Remote", none, none, none, "u", none⟩ : NormalizedJob)]).length =
      ([(⟨.str "u", .str "T", .str "C", .absent, .absent, .absent, .absent,
          .absent⟩ : RemotiveRawJob)].filter remotiveHasKeys).length :=
  (adapters_drop_missing_key_records.1
    [⟨.str "u", .str "T", .str "C", .absent, .absent, .absent, .absent, .absent⟩]
    [⟨"T", "C", "Remote", none, none, none, "u", none⟩] (by rfl)).1

/-- C3 counterexample: a Remotive record whose title key is present but holds
the empty string passes the key-presence filter, so the normalized output
contains a record with an empty title, contradicting the claim that every
normalized record has a non-empty title. -/
theorem remotive_keeps_empty_title :
    fetchRemotive (.ok [⟨.str "u1", .str "", .str "Acme", .absent, .absent,
        .absent, .absent, .absent⟩]) =
      .ok [⟨"", "Acme", "Remote", none, none, none, "u1", none⟩] := by rfl

/-- C4 (amended): isLikelyEnglish returns true for every string of UTF-16
length below two, even a single CJK character; for longer strings it returns
false when some trimmed character lies in an Arabic, Cyrillic, CJK, Hebrew or
Thai block, false when more than 15 percent of the trimmed characters are
non-ASCII, false when a character of the Latin-diacritic class appears, and
true otherwise; in particular false on the CJK example and true on the plain
ASCII sentence. -/
theorem isLikelyEnglish_characterization :
    isLikelyEnglish "招聘远程工程师" = false ∧
    isLikelyEnglish "Remote Backend Engineer" = true ∧
    (∀ s : String, utf16Len s < 2 → isLikelyEnglish s = true) ∧
    (∀ s : String, 2 ≤ utf16Len s → hasNonLatinScript (jsTrim s) = true →
      isLikelyEnglish s = false) ∧
    (∀ s : String, 2 ≤ utf16Len s →
      3 * utf16Len (jsTrim s) <
        20 * ((jsTrim s).data.filter (fun c => 127 < c.toNat)).length →
      isLikelyEnglish s = false) ∧
    (∀ s : String, 2 ≤ utf16Len s →
      ((jsTrim s).data.any (fun c => latinDiacritics.contains c)) = true →
      isLikelyEnglish s = false) ∧
    (∀ s : String, 2 ≤ utf16Len s →
      hasNonLatinScript (jsTrim s) = false →
      ¬(3 * utf16Len (jsTrim s) <
        20 * ((jsTrim s).data.filter (fun c => 127 < c.toNat)).length) →
      ((jsTrim s).data.any (fun c => latinDiacritics.contains c)) = false →
      isLikelyEnglish s = true) := by
  refine ⟨by decide, by decide, fun s h => ?_, fun s h h2 => ?_,
    fun s h h2 => ?_, fun s h h2 => ?_, fun s h h2 h3 h4 => ?_⟩
  · simp [isLikelyEnglish, h]
  · simp only [isLikelyEnglish]
    rw [if_neg (by omega)]
    simp [h2]
  · simp only [isLikelyEnglish]
    rw [if_neg (by omega)]
    simp [h2]
  · simp only [isLikelyEnglish]
    rw [if_neg (by omega)]
    simp
    intro _ _
    simpa using h2
  · simp only [isLikelyEnglish]
    rw [if_neg (by omega), if_neg (by rw [h2]; simp), if_neg h3,
        if_neg (by rw [h4]; simp)]

/-- C4 witness: the length gate and the non-Latin-script branch at concrete
inputs. -/
theorem isLikelyEnglish_characterization_witness :
    isLikelyEnglish "a" = true ∧ isLikelyEnglish "Привет мир" = false :=
  ⟨isLikelyEnglish_characterization.2.2.1 "a" (by decide),
   isLikelyEnglish_characterization.2.2.2.1 "Привет мир" (by decide) (by decide)⟩

/-- C4 counterexample: the single-character string of one CJK ideograph lies in
the CJK block by the code's own test, yet isLikelyEnglish returns true for it,
because the length gate fires before any script check; the claim requires false
for every string containing a CJK character. -/
theorem isLikelyEnglish_single_cjk_true :
    hasNonLatinScript "招" = true ∧ isLikelyEnglish "招" = true := by decide

/-- C5: translateToEnglish returns the trimmed input unchanged and independently
of the provider (hence without any network call) when the input is empty or the
trimmed text is deemed likely-English — in particular the empty string yields
the empty string; otherwise it returns the trimmed provider text exactly when
the provider answers with success status, no quota exhaustion, and a non-empty
translated text, and returns the original trimmed text on transport failure or
timeout, non-success status, quota exhaustion, or a missing or empty translated
text; being a total function it never raises. -/
theorem translateToEnglish_best_effort :
    (∀ tr : String → Option MyMemoryResp, translateToEnglish tr "" = "") ∧
    (∀ (tr tr2 : String → Option MyMemoryResp) (text : String),
      jsTrim text = "" ∨ isLikelyEnglish (jsTrim text) = true →
      translateToEnglish tr text = jsTrim text ∧
      translateToEnglish tr text = translateToEnglish tr2 text) ∧
    (∀ (tr : String → Option MyMemoryResp) (text : String),
      jsTrim text ≠ "" → isLikelyEnglish (jsTrim text) = false →
      tr (truncateForRequest (jsTrim text)) = none →
      translateToEnglish tr text = jsTrim text) ∧
    (∀ (tr : String → Option MyMemoryResp) (text : String) (resp : MyMemoryResp),
      jsTrim text ≠ "" → isLikelyEnglish (jsTrim text) = false →
      tr (truncateForRequest (jsTrim text)) = some resp →
      (resp.ok = false ∨ resp.quotaFinished = true ∨ resp.translatedText = none ∨
        (∃ tt, resp.translatedText = some tt ∧ jsTrim tt = "")) →
      translateToEnglish tr text = jsTrim text) ∧
    (∀ (tr : String → Option MyMemoryResp) (text : String) (resp : MyMemoryResp)
        (tt : String),
      jsTrim text ≠ "" → isLikelyEnglish (jsTrim text) = false →
      tr (truncateForRequest (jsTrim text)) = some resp →
      resp.ok = true → resp.quotaFinished = false → resp.translatedText = some tt →
      jsTrim tt ≠ "" →
      translateToEnglish tr text = jsTrim tt) := by
  refine ⟨fun tr => rfl, fun tr tr2 text hc => ?_, fun tr text h1 h2 h3 => ?_,
    fun tr text resp h1 h2 h3 hc => ?_, fun tr text resp tt h1 h2 h3 h4 h5 h6 h7 => ?_⟩
  · rcases hc with hc | hc
    · constructor <;> simp [translateToEnglish, hc]
    · constructor <;> simp [translateToEnglish, hc]
  · simp [translateToEnglish, h1, h2, h3]
  · rcases hc with hc | hc | hc | ⟨tt, htt, hte⟩
    · simp [translateToEnglish, h1, h2, h3, hc]
    · simp [translateToEnglish, h1, h2, h3, hc]
    · simp [translateToEnglish, h1, h2, h3, hc]
    · simp [translateToEnglish, h1, h2, h3, htt, hte]
  · simp [translateToEnglish, h1, h2, h3, h4, h5, h6, h7]

/-- C5 witness: the empty-input branch, a likely-English input, a transport
failure, and a successful translation at concrete inputs. -/
theorem translateToEnglish_best_effort_witness :
    (translateToEnglish (fun _ => none) "hello world" = "hello world" ∧
      translateToEnglish (fun _ => none) "hello world" =
        translateToEnglish (fun _ => some ⟨true, false, some "X"⟩) "hello world") ∧
    translateToEnglish (fun _ => none) "Инженер" = "Инженер" ∧
    translateToEnglish (fun _ => some ⟨true, false, some "Engineer"⟩) "Инженер" =
      "Engineer" :=
  ⟨translateToEnglish_best_effort.2.1 (fun _ => none)
      (fun _ => some ⟨true, false, some "X"⟩) "hello world" (Or.inr (by decide)),
   translateToEnglish_best_effort.2.2.1 (fun _ => none) "Инженер"
      (by decide) (by decide) rfl,
   translateToEnglish_best_effort.2.2.2.2 (fun _ => some ⟨true, false, some "Engineer"⟩)
      "Инженер" ⟨true, false, some "Engineer"⟩ "Engineer"
      (by decide) (by decide) rfl rfl rfl rfl (by decide)⟩

/-- True when the query carries a category condition. -/
def hasCategoryCond (q : JobsQuery) : Bool :=
  q.conds.any (fun c => match c with | .ilikeCategory _ => true | _ => false)

/-- A storage read that fails with a non-42703 code but a message mentioning
42703 as long as the category filter is still applied, and succeeds once it is
dropped. -/
def schemaDriftDb : JobsQuery → Nat → Nat →
    Except PgError (Option (List JobRow) × Option Nat) :=
  fun q _ _ => if hasCategoryCond q then .error ⟨some "23505", "boom 42703"⟩
    else .ok (some [], some 0)

/-- A filter set with only the category filter present. -/
def categoryFilters : JobFilters := ⟨none, none, some "eng", none, false, none, none, none⟩

/-- An empty filter set. -/
def noFilters : JobFilters := ⟨none, none, none, none, false, none, none, none⟩

/-- C6 (amended): when the first read fails with an error whose code is 42703 OR
whose message contains the string 42703, getJobs retries exactly once with the
same search, location and remote filters, the same sort and range, and the
category and experience filters dropped, answering from that retry (and
propagating an error of the retry); an error matching neither test is
propagated unchanged. -/
theorem getJobs_schema_drift_fallback :
    (∀ (db : JobsQuery → Nat → Nat →
          Except PgError (Option (List JobRow) × Option Nat))
        (filters : JobFilters) (e : PgError),
      db (buildJobsQuery filters false).1 (buildJobsQuery filters false).2.1
          (buildJobsQuery filters false).2.2.1 = .error e →
      (e.code = some "42703" ∨ strContains e.message "42703" = true) →
      (∀ e2, db (buildJobsQuery filters true).1 (buildJobsQuery filters true).2.1
            (buildJobsQuery filters true).2.2.1 = .error e2 →
          getJobs db filters = .error e2) ∧
      (∀ data count,
        db (buildJobsQuery filters true).1 (buildJobsQuery filters true).2.1
            (buildJobsQuery filters true).2.2.1 = .ok (data, count) →
        ∃ r, getJobs db filters = .ok r ∧
          r.jobs = data.getD [] ∧ r.total = count.getD 0 ∧
          r.page = (buildJobsQuery filters true).2.2.2.2 ∧
          r.limit = (buildJobsQuery filters false).2.2.2.1)) ∧
    (∀ filters : JobFilters,
      (buildJobsQuery filters true).1.conds =
        (buildJobsQuery filters false).1.conds.filter (fun c => match c with
          | .ilikeCategory _ => false
          | .ilikeExperience _ => false
          | _ => true) ∧
      (buildJobsQuery filters true).1.sortAscending =
        (buildJobsQuery filters false).1.sortAscending ∧
      (buildJobsQuery filters true).2 = (buildJobsQuery filters false).2) ∧
    (∀ (db : JobsQuery → Nat → Nat →
          Except PgError (Option (List JobRow) × Option Nat))
        (filters : JobFilters) (e : PgError),
      db (buildJobsQuery filters false).1 (buildJobsQuery filters false).2.1
          (buildJobsQuery filters false).2.2.1 = .error e →
      e.code ≠ some "42703" → strContains e.message "42703" = false →
      getJobs db filters = .error e) := by
  refine ⟨fun db filters e h hc => ?_, fun filters => ?_,
    fun db filters e h h2 h3 => ?_⟩
  · have hcb : (decide (e.code = some "42703") || strContains e.message "42703") = true := by
      rcases hc with hc | hc <;> simp [hc]
    refine ⟨fun e2 h2 => ?_, fun data count h2 => ?_⟩
    · simp only [getJobs]
      rw [h]
      simp only [hcb, if_true]
      rw [h2]
    · simp only [getJobs]
      rw [h]
      simp only [hcb, if_true]
      rw [h2]
      exact ⟨_, rfl, rfl, rfl, rfl, rfl⟩
  · refine ⟨?_, rfl, rfl⟩
    simp only [buildJobsQuery]
    cases filters.search <;> cases filters.location <;> cases filters.category <;>
      cases filters.experience <;> cases hr : filters.remote <;>
      simp [List.filter_append] <;> split_ifs <;> simp
  · simp only [getJobs]
    rw [h]
    simp [h2, h3]

/-- C6 witness: the fallback at concrete storage functions — a retry that fails
again propagates the retry error, and a first error matching neither 42703 test
propagates unchanged. -/
theorem getJobs_schema_drift_fallback_witness :
    getJobs (fun _ _ _ => .error ⟨some "42703", "column does not exist"⟩) noFilters =
      .error ⟨some "42703", "column does not exist"⟩ ∧
    getJobs (fun _ _ _ => .error ⟨some "XX000", "boom"⟩) noFilters =
      .error ⟨some "XX000", "boom"⟩ :=
  ⟨(getJobs_schema_drift_fallback.1
      (fun _ _ _ => .error ⟨some "42703", "column does not exist"⟩) noFilters
      ⟨some "42703", "column does not exist"⟩ rfl (Or.inl rfl)).1
      ⟨some "42703", "column does not exist"⟩ rfl,
   getJobs_schema_drift_fallback.2.2
      (fun _ _ _ => .error ⟨some "XX000", "boom"⟩) noFilters
      ⟨some "XX000", "boom"⟩ rfl (by decide) (by decide)⟩

/-- C6 counterexample: an error whose PostgreSQL code is 23505 — not 42703 —
but whose message happens to contain the string 42703 is NOT propagated: getJobs
retries and answers ok from the fallback query, contradicting the claim that any
read error other than code 42703 is propagated as a request failure. -/
theorem getJobs_message_substring_retry :
    schemaDriftDb (buildJobsQuery categoryFilters false).1
        (buildJobsQuery categoryFilters false).2.1
        (buildJobsQuery categoryFilters false).2.2.1 =
      .error ⟨some "23505", "boom 42703"⟩ ∧
    getJobs schemaDriftDb categoryFilters = .ok ⟨[], 0, 0, 1, 12⟩ := by
  constructor <;> rfl

/-- The effective page size computed by buildJobsQuery is always at least one
(default 12, a zero or missing limit falls back to 12, and the cap is 50). -/
theorem buildJobsQuery_limit_pos (filters : JobFilters) (skip : Bool) :
    1 ≤ (buildJobsQuery filters skip).2.2.2.1 := by
  simp only [buildJobsQuery]
  cases filters.limit with
  | none => simp
  | some n => by_cases hn : n = 0 <;> simp [hn] <;> omega

/-- C7: every successful getJobs reply carries
totalPages = max (ceil (total / limit)) 1 for its (positive) effective limit,
where the ceiling of the division is (total + limit - 1) / limit; in particular
a count of 25 under the default limit 12 gives 3 pages and a count of 0 gives
1 page. -/
theorem getJobs_totalPages_ceil :
    (∀ (db : JobsQuery → Nat → Nat →
          Except PgError (Option (List JobRow) × Option Nat))
        (filters : JobFilters) (r : GetJobsResult),
      getJobs db filters = .ok r →
      r.totalPages = max ((r.total + r.limit - 1) / r.limit) 1 ∧ 1 ≤ r.limit) ∧
    getJobs (fun _ _ _ => .ok (some [], some 25)) noFilters =
      .ok ⟨[], 25, 0, 3, 12⟩ ∧
    getJobs (fun _ _ _ => .ok (some [], some 0)) noFilters =
      .ok ⟨[], 0, 0, 1, 12⟩ := by
  refine ⟨fun db filters r h => ?_, rfl, rfl⟩
  have hlim : 1 ≤ (buildJobsQuery filters false).2.2.2.1 :=
    buildJobsQuery_limit_pos filters false
  simp only [getJobs] at h
  split at h
  · simp only [Except.ok.injEq] at h
    subst h
    refine ⟨?_, hlim⟩
    simp only
    generalize (_ + (buildJobsQuery filters false).2.2.2.1 - 1) /
      (buildJobsQuery filters false).2.2.2.1 = tp
    split_ifs <;> omega
  · split at h
    · split at h
      · simp only [Except.ok.injEq] at h
        subst h
        refine ⟨?_, hlim⟩
        simp only
        generalize (_ + (buildJobsQuery filters false).2.2.2.1 - 1) /
          (buildJobsQuery filters false).2.2.2.1 = tp
        split_ifs <;> omega
      · exact absurd h (by simp)
    · exact absurd h (by simp)

/-- C7 witness: the general formula applied at the 25-row instance. -/
theorem getJobs_totalPages_ceil_witness :
    (3 : Nat) = max ((25 + 12 - 1) / 12) 1 ∧ (1 : Nat) ≤ 12 :=
  (getJobs_totalPages_ceil.1 (fun _ _ _ => .ok (some [], some 25)) noFilters
    ⟨[], 25, 0, 3, 12⟩ (by rfl))

/-- Zipping a list with its own image lists each element with its image. -/
theorem zip_map_self (g : α → β) :
    ∀ l : List α, l.zip (l.map g) = l.map (fun a => (a, g a))
  | [] => rfl
  | a :: t => by simp [zip_map_self g t]

/-- The backfill tabulated: each row is replaced by its update exactly when its
translation changed some field, and the updated count is the number of such
rows. -/
theorem translateJobsPost_map (tr : String → Option MyMemoryResp)
    (table : List StoredTransRow) :
    (translateJobsPost tr table).1 = table.map (fun orig =>
      if rowChanged orig (ensureJobEnglish tr (toTransTJob orig)) then
        applyTransUpdate orig (ensureJobEnglish tr (toTransTJob orig)) else orig) ∧
    (translateJobsPost tr table).2 = (table.filter (fun orig =>
      rowChanged orig (ensureJobEnglish tr (toTransTJob orig)))).length := by
  simp only [translateJobsPost]
  rw [ensureJobsEnglish_eq_map, List.map_map, zip_map_self, List.map_map]
  constructor
  · rfl
  · rw [List.filter_map, List.length_map]
    rfl

/-- A translation service answering only the one Cyrillic title of the demo
table below. -/
def demoTranslator : String → Option MyMemoryResp :=
  fun q => if q = "Инженер" then some ⟨true, false, some "Engineer"⟩ else none

/-- Three stored rows of which exactly one has a non-English title. -/
def demoBackfillTable : List StoredTransRow :=
  [⟨1, some "Senior Engineer", some "Acme", some "Berlin", some "Great role"⟩,
   ⟨2, some "Инженер", some "Acme", some "Berlin", some "Great role"⟩,
   ⟨3, some "Data Analyst", some "Beta", some "Remote", some "Nice"⟩]

/-- C8: the translation backfill rewrites a stored row exactly when the
translated text of one of its four fields differs from the stored text (a
missing stored title or company comparing as empty text and a missing stored
location or description as null, as the source compares them), leaves every
other row unchanged positionally, and reports as updated the number of rows so
changed; on three stored rows of which only one has a non-English title, the
reply is updated equal to one. -/
theorem translate_backfill_updates_iff (tr : String → Option MyMemoryResp)
    (table : List StoredTransRow) (i : Nat) :
    (translateJobsPost tr table).1.length = table.length ∧
    (translateJobsPost tr table).1[i]? = (table[i]?).map (fun orig =>
      if rowChanged orig (ensureJobEnglish tr (toTransTJob orig)) then
        applyTransUpdate orig (ensureJobEnglish tr (toTransTJob orig)) else orig) ∧
    (translateJobsPost tr table).2 = (table.filter (fun orig =>
      rowChanged orig (ensureJobEnglish tr (toTransTJob orig)))).length ∧
    translateJobsPost demoTranslator demoBackfillTable =
      ([⟨1, some "Senior Engineer", some "Acme", some "Berlin", some "Great role"⟩,
        ⟨2, some "Engineer", some "Acme", some "Berlin", some "Great role"⟩,
        ⟨3, some "Data Analyst", some "Beta", some "Remote", some "Nice"⟩], 1) := by
  refine ⟨?_, ?_, (translateJobsPost_map tr table).2, by rfl⟩
  · rw [(translateJobsPost_map tr table).1, List.length_map]
  · rw [(translateJobsPost_map tr table).1, List.getElem?_map]

/-- A LinkedIn record with no location field at all. -/
def linkedInRawNoLocation : LinkedInRaw :=
  ⟨.str "Dev", .str "Acme", .absent, .str "Desc", .str "u1", .absent, .absent⟩

/-- A LinkedIn record whose location field holds the empty string. -/
def linkedInRawEmptyLocation : LinkedInRaw :=
  ⟨.str "Dev", .str "Acme", .str "", .str "Desc", .str "u2", .absent, .absent⟩

/-- C9 (amended): on the fetch-jobs ingestion path the row mapping does default
an empty or missing translated location to "Remote", so every row that run adds
to the table has a non-empty location; the LinkedIn ingestion path, however,
defaults a missing source location to "Worldwide" and persists an empty-string
source location as the empty string, so the default to "Remote" does not hold on
every ingestion path. -/
theorem location_defaults_by_path (tr : String → Option MyMemoryResp)
    (table : List JobRow) (r1 : Except String (List RemotiveRawJob))
    (r2 : Except String (List RemoteOkRawJob))
    (r3 : Except String (List ArbeitNowRawJob))
    (t : TJob NormalizedRest) (row : JobRow) :
    ((t.location = some "" ∨ t.location = none) →
      (toUpsertRow t).location = "Remote") ∧
    (row ∈ (fetchJobsGet tr table r1 r2 r3).2 → row ∈ table ∨ row.location ≠ "") ∧
    (scrapeAndInsertLinkedInJobs (fun _ => none) [] [linkedInRawNoLocation]).2 =
      [⟨"Dev", "Acme", "Worldwide", some "Desc", "u1"⟩] ∧
    (scrapeAndInsertLinkedInJobs (fun _ => none) [] [linkedInRawEmptyLocation]).2 =
      [⟨"Dev", "Acme", "", some "Desc", "u2"⟩] := by
  refine ⟨fun h => ?_, fun h => ?_, by rfl, by rfl⟩
  · rcases h with h | h <;> simp [toUpsertRow, h]
  · exact processResults_mem tr _ table row h

/-- C9 witness: the fetch-jobs row mapping at a record with an empty translated
location, and the table-membership frame on a concrete run. -/
theorem location_defaults_by_path_witness :
    (toUpsertRow ⟨"T", "C", some "", none, ⟨none, none, "u", none⟩⟩).location =
      "Remote" ∧
    ((⟨"T", "C", "L", none, "u"⟩ : JobRow) ∈
        ([⟨"T", "C", "L", none, "u"⟩] : List JobRow) ∨
      (⟨"T", "C", "L", none, "u"⟩ : JobRow).location ≠ "") :=
  ⟨(location_defaults_by_path (fun _ => none) [] (.ok []) (.ok []) (.ok [])
      ⟨"T", "C", some "", none, ⟨none, none, "u", none⟩⟩
      ⟨"T", "C", "L", none, "u"⟩).1 (Or.inl rfl),
   (location_defaults_by_path (fun _ => none) [⟨"T", "C", "L", none, "u"⟩]
      (.ok []) (.ok []) (.ok [])
      ⟨"T", "C", some "", none, ⟨none, none, "u", none⟩⟩
      ⟨"T", "C", "L", none, "u"⟩).2.1 (by decide)⟩

/-- C9 counterexample: a LinkedIn record whose source omits the location is
persisted with location "Worldwide", not "Remote", refuting the claim that the
empty location defaults to "Remote" on every ingestion path. -/
theorem linkedin_location_not_remote :
    ((scrapeAndInsertLinkedInJobs (fun _ => none) [] [linkedInRawNoLocation]).2.map
      JobRow.location) = ["Worldwide"] ∧ ("Worldwide" : String) ≠ "Remote" := by
  exact ⟨rfl, by decide⟩
